import Mathlib

/-!
Verification development for the nacs-spcm streaming engine
(src/nacs-spcm/Stream.h, src/nacs-spcm/Stream.cpp).

The definitions below are a shallow embedding of the C++ source.
Machine integers are modelled as `Nat`/`Int`; the places where the C++
performs modular (wrapping) arithmetic carry an explicit `% 2^w`.
The `double`-typed step length is modelled as a rational number and the
`float` pulse length `len` as a natural number of steps (all commands the
claims exercise carry integral lengths).  The opaque function pointer of a
command is modelled by two explicit generator fields, one for the scalar
casts and one for the vector cast, mirroring the two casts the C++
performs on `fnptr`.
-/

namespace Spcm

/-- Bit width constants of the `Cmd` bitfield: 4 opcode bits, 28 channel
bits, so the add-channel sentinel is `2^28 - 1`. -/
def op_bits : Nat := 4

def chn_bits : Nat := 32 - op_bits

def add_chn : Nat := 2 ^ chn_bits - 1

/-- Opcode values in the order of the C++ `enum class CmdType`. -/
def opMeta : Nat := 0

def opAmpSet : Nat := 1

def opAmpFn : Nat := 2

def opAmpVecFn : Nat := 3

def opFreqSet : Nat := 4

def opFreqFn : Nat := 5

def opFreqVecFn : Nat := 6

def opModChn : Nat := 7

def opPhase : Nat := 8

/-- Meta sub-commands in the order of the C++ `enum class CmdMeta`;
they are carried in the `chn` field of a `Meta` command. -/
def metaReset : Nat := 0

def metaResetAll : Nat := 1

def metaTriggerEnd : Nat := 2

def metaTriggerStart : Nat := 3

/-- `constexpr uint64_t max_phase = uint64_t(625e6 * 10)`. -/
def max_phase : Int := 6250000000

/-- Unsigned 32-bit subtraction `a - b` (wraps modulo `2^32`), for
`m_cur_t - cmd->t` style expressions on `uint32_t` operands. -/
def sub32 (a b : Nat) : Nat := (a + 2 ^ 32 - b) % 2 ^ 32

/-- Conversion of a signed 32-bit value to `uint32_t` (two's complement
reinterpretation). -/
def toU32 (v : Int) : Nat := (v.emod (2 ^ 32)).toNat

/-- One command record.  `t`, `op`, `chn` are the `uint32_t`/bitfield
fields, `final_val` the `int32_t` target, `len` the pulse length.  The
C++ `fnptr` is modelled by `gen` (the scalar `int32_t(*)(uint32_t)` cast
used by `AmpFn`/`FreqFn`) and `vgen` (the vector
`std::vector<int32_t>(*)(std::vector<uint32_t>)` cast used by
`AmpVecFn`/`FreqVecFn`). -/
structure Cmd where
  t : Nat
  op : Nat
  chn : Nat
  final_val : Int
  len : Nat
  gen : Nat → Int
  vgen : List Nat → List Int

/-- `Cmd::getAmpSet`. -/
def Cmd.getAmpSet (t chn : Nat) (amp : Int) : Cmd :=
  ⟨t, opAmpSet, chn, amp, 0, fun _ => 0, fun _ => []⟩

/-- `Cmd::getFreqSet`. -/
def Cmd.getFreqSet (t chn : Nat) (freq : Int) : Cmd :=
  ⟨t, opFreqSet, chn, freq, 0, fun _ => 0, fun _ => []⟩

/-- `Cmd::getPhase`. -/
def Cmd.getPhase (t chn : Nat) (phase : Int) : Cmd :=
  ⟨t, opPhase, chn, phase, 0, fun _ => 0, fun _ => []⟩

/-- `Cmd::getAddChn`. -/
def Cmd.getAddChn (t : Nat) : Cmd :=
  ⟨t, opModChn, add_chn, 0, 0, fun _ => 0, fun _ => []⟩

/-- `Cmd::getDelChn`. -/
def Cmd.getDelChn (t chn : Nat) : Cmd :=
  ⟨t, opModChn, chn, 0, 0, fun _ => 0, fun _ => []⟩

/-- `Cmd::getReset`. -/
def Cmd.getReset (t : Nat) : Cmd :=
  ⟨t, opMeta, metaReset, 0, 0, fun _ => 0, fun _ => []⟩

/-- `Cmd::getResetAll`. -/
def Cmd.getResetAll (t : Nat) : Cmd :=
  ⟨t, opMeta, metaResetAll, 0, 0, fun _ => 0, fun _ => []⟩

/-- `Cmd::getTriggerEnd`, with the trigger id in `final_val`. -/
def Cmd.getTriggerEnd (t : Nat) (id : Int) : Cmd :=
  ⟨t, opMeta, metaTriggerEnd, id, 0, fun _ => 0, fun _ => []⟩

/-- `Cmd::getTriggerStart`, with the trigger id in `final_val`. -/
def Cmd.getTriggerStart (t : Nat) (id : Int) : Cmd :=
  ⟨t, opMeta, metaTriggerStart, id, 0, fun _ => 0, fun _ => []⟩

/-- `Cmd::getAmpVecFn`. -/
def Cmd.getAmpVecFn (t chn : Nat) (final_val : Int) (len : Nat)
    (vgen : List Nat → List Int) : Cmd :=
  ⟨t, opAmpVecFn, chn, final_val, len, fun _ => 0, vgen⟩

/-- Per-channel state (`StreamBase::State`): `int64_t phase`,
`int32_t freq`, `int32_t amp`. -/
structure State where
  phase : Int
  freq : Int
  amp : Int
deriving DecidableEq

/-- An in-flight long command (`struct activeCmd`): the command plus the
table of precalculated values.  For the vector ops the constructor
evaluates the generator on `0, 1, ..., len` eagerly; for the scalar ops
the C++ grows a cache lazily whose entry `k` always equals `fnptr(k)`,
so evaluation is modelled by calling the generator directly. -/
structure ActiveCmd where
  cmd : Cmd
  vals : List Int

/-- The `activeCmd` constructor: precompute the value table for the
vector generator ops, leave it empty otherwise. -/
def mkActive (c : Cmd) : ActiveCmd :=
  { cmd := c
    vals :=
      if c.op = opAmpVecFn ∨ c.op = opFreqVecFn then
        c.vgen (List.range (c.len + 1))
      else [] }

/-- `activeCmd::eval`: value and per-step delta at offset `t` from the
start of the pulse.  Vector ops read `vals[t]` and `vals[t+1]` (an
out-of-range read is undefined behaviour in C++; here it defaults to 0);
scalar ops evaluate the generator at `t` and `t+1`. -/
def ActiveCmd.eval (a : ActiveCmd) (t : Nat) : Int × Int :=
  if a.cmd.op = opAmpVecFn ∨ a.cmd.op = opFreqVecFn then
    (a.vals.getD t 0, a.vals.getD (t + 1) 0 - a.vals.getD t 0)
  else if a.cmd.op = opAmpFn ∨ a.cmd.op = opFreqFn then
    (a.cmd.gen t, a.cmd.gen (t + 1) - a.cmd.gen t)
  else (0, 0)

/-- The per-stream mutable state of `StreamBase` that the worker loop
touches, with the channel state table modelled as a total function from
slot index to `State` (the C++ array has a fixed capacity; slots at or
beyond `chns` are not live). -/
structure MS where
  slow_mode : Bool
  end_trigger_pending : Nat
  end_trigger_waiting : Nat
  chns : Nat
  cur_t : Nat
  output_cnt : Nat
  step_t : ℚ
  cmd_underflow : Nat
  underflow : Nat
  active_cmds : List ActiveCmd
  end_triggered : Nat
  time_offset : Int
  end_trigger : Option Nat
  start_trigger : Nat
  start_trigger_time : Nat
  states : Nat → State

/-- Update one slot of the channel state table. -/
def updState (s : Nat → State) (i : Nat) (f : State → State) : Nat → State :=
  fun j => if j = i then f (s j) else s j

/-- `uint64_t(m_step_t * m_output_cnt)`: the projected global time of the
stream (the double is modelled as a rational, truncated to a natural
number). -/
def global_time (m : MS) : Nat := (m.step_t * (m.output_cnt : ℚ)).floor.toNat

/-- `time_offset() + global_time` as the C++ computes it: the `int64_t`
offset and the `uint64_t` global time are added in `uint64_t`, i.e.
modulo `2^64`. -/
def proj_time (m : MS) : Nat :=
  ((m.time_offset + (global_time m : Int)).emod (2 ^ 64)).toNat

/-- `StreamBase::check_start`: set `m_cur_t` to the command time, then
succeed (clearing slow mode) iff the published start-trigger id has
reached `id` and the projected global time has reached the published
start-trigger time; otherwise set slow mode and fail. -/
def check_start (m : MS) (t : Nat) (id : Nat) : MS × Bool :=
  if m.start_trigger < id then ({ m with cur_t := t, slow_mode := true }, false)
  else if proj_time { m with cur_t := t } < m.start_trigger_time then
    ({ m with cur_t := t, slow_mode := true }, false)
  else ({ m with cur_t := t, slow_mode := false }, true)

/-- The `CmdType::Meta` switch shared by `consume_old_cmds` and `step`:
Reset zeroes the time, ResetAll additionally clears the underflow
counters, the channel count and slow mode, TriggerEnd records a pending
end-trigger id, TriggerStart runs `check_start`.  The boolean is false
exactly when a TriggerStart check failed (the caller then returns
without consuming the command). -/
def applyMetaCmd (c : Cmd) (m : MS) : MS × Bool :=
  if c.chn = metaReset then ({ m with cur_t := 0 }, true)
  else if c.chn = metaResetAll then
    ({ m with cmd_underflow := 0, underflow := 0, cur_t := 0, chns := 0,
              slow_mode := false }, true)
  else if c.chn = metaTriggerEnd then
    ({ m with end_trigger_pending := toU32 c.final_val }, true)
  else if c.chn = metaTriggerStart then check_start m c.t (toU32 c.final_val)
  else (m, true)

/-- The `CmdType::ModChn` case (identical in `consume_old_cmds` and in
`step`): the sentinel channel value appends a zeroed channel; otherwise
`m_chns` is decremented (`uint32_t` arithmetic) and the state of the
last live channel is copied into the removed slot. -/
def modChnApply (c : Cmd) (m : MS) : MS :=
  if c.chn = add_chn then
    { m with states := updState m.states m.chns (fun _ => ⟨0, 0, 0⟩),
             chns := m.chns + 1 }
  else
    { m with chns := sub32 m.chns 1,
             states := updState m.states c.chn (fun _ => m.states (sub32 m.chns 1)) }

/-- One iteration of the `consume_old_cmds` switch, for a command whose
time is strictly in the past.  Set commands overwrite the state field;
ramp commands still inside their window register an `activeCmd` and
store value-plus-delta, elapsed ones store `final_val`; Phase overwrites
the phase; ModChn edits the channel table; any unrecognized opcode falls
through the switch and does nothing.  The boolean is false exactly when
a TriggerStart check failed. -/
def applyOldCmd (c : Cmd) (m : MS) : MS × Bool :=
  if c.op = opMeta then applyMetaCmd c m
  else if c.op = opAmpSet then
    ({ m with states := updState m.states c.chn (fun s => { s with amp := c.final_val }) },
     true)
  else if c.op = opFreqSet then
    ({ m with states := updState m.states c.chn (fun s => { s with freq := c.final_val }) },
     true)
  else if c.op = opAmpFn ∨ c.op = opAmpVecFn then
    if m.cur_t < c.t + c.len then
      let a := mkActive c
      let vd := a.eval (sub32 m.cur_t c.t)
      ({ m with active_cmds := m.active_cmds ++ [a],
                states := updState m.states c.chn
                  (fun s => { s with amp := vd.1 + vd.2 }) }, true)
    else
      ({ m with states := updState m.states c.chn (fun s => { s with amp := c.final_val }) },
       true)
  else if c.op = opFreqFn ∨ c.op = opFreqVecFn then
    if m.cur_t < c.t + c.len then
      let a := mkActive c
      let vd := a.eval (sub32 m.cur_t c.t)
      ({ m with active_cmds := m.active_cmds ++ [a],
                states := updState m.states c.chn
                  (fun s => { s with freq := vd.1 + vd.2 }) }, true)
    else
      ({ m with states := updState m.states c.chn (fun s => { s with freq := c.final_val }) },
       true)
  else if c.op = opPhase then
    ({ m with states := updState m.states c.chn (fun s => { s with phase := c.final_val }) },
     true)
  else if c.op = opModChn then (modChnApply c m, true)
  else (m, true)

/-- The `do ... while` loop of `consume_old_cmds`: return with the head
still in place when it is due now (second component true) or in the
future; otherwise apply it, consume it and continue.  A failed
TriggerStart returns with the command still at the head. -/
def consumeOldLoop : List Cmd → MS → MS × List Cmd × Bool
  | [], m => (m, [], false)
  | c :: rest, m =>
    if c.t = m.cur_t then (m, c :: rest, true)
    else if m.cur_t < c.t then (m, c :: rest, false)
    else
      let r := applyOldCmd c m
      if r.2 then consumeOldLoop rest r.1
      else (r.1, c :: rest, false)

/-- `StreamBase::consume_old_cmds`: bump the command-underflow counter
once when the first command does not start at time 0, then run the
catch-up loop.  The second component of the result is the remaining
command queue; the boolean tells whether its head is due exactly now. -/
def consume_old_cmds (m : MS) (cmds : List Cmd) : MS × List Cmd × Bool :=
  match cmds with
  | [] => (m, [], false)
  | c :: rest =>
    let m1 := if c.t ≠ 0 then { m with cmd_underflow := m.cmd_underflow + 1 } else m
    consumeOldLoop (c :: rest) m1

/-- The `while (cmd->op() == CmdType::ModChn)` drain inside `step`:
apply channel add/remove commands back to back, refetching with
`get_cmd_curt`; stop with a usable command (boolean true) when a due
non-ModChn command is reached, or with none when the queue runs out or
the head moves to the future. -/
def modChnDrain (m : MS) : List Cmd → MS × List Cmd × Bool
  | [] => (m, [], false)
  | c :: rest =>
    if c.op = opModChn then
      let m1 := modChnApply c m
      match rest with
      | [] => (m1, [], false)
      | c1 :: rest1 =>
        if c1.t ≤ m1.cur_t then modChnDrain m1 (c1 :: rest1)
        else (m1, c1 :: rest1, false)
    else (m, c :: rest, true)

/-- The `retry` loop at the top of `StreamBase::step`, with an explicit
fuel argument (the fuel is one more than the queue length at the call
site, which is enough because every iteration consumes at least one
command).  The boolean result reports whether a due non-Meta, non-ModChn
command is left at the head for the per-channel loop to use. -/
def stepRetryF : Nat → MS → List Cmd → MS × List Cmd × Bool
  | 0, m, cmds => (m, cmds, false)
  | fuel + 1, m, cmds =>
    match cmds with
    | [] => (m, [], false)
    | c :: rest =>
      if m.cur_t < c.t then (m, c :: rest, false)
      else if c.t < m.cur_t then
        let r := consume_old_cmds m (c :: rest)
        if r.2.2 then stepRetryF fuel r.1 r.2.1 else (r.1, r.2.1, false)
      else
        if c.op = opMeta then
          let r := applyMetaCmd c m
          if r.2 then stepRetryF fuel r.1 rest else (r.1, c :: rest, false)
        else if c.op = opModChn then modChnDrain m (c :: rest)
        else (m, c :: rest, true)

/-- The end-trigger block of `step` (run once per step, before the
per-channel loop).  `pos` models the output-buffer position that
`set_end_trigger(out)` publishes.  A waiting id is published as
triggered when the external pointer is found to be unavailable, the
pending id (which is not cleared in this branch) is promoted in the same
step and re-arms the pointer; with no id waiting, a pending id is
promoted immediately and the pointer is published. -/
def endTrigStep (m : MS) (pos : Nat) : MS :=
  if m.end_trigger_waiting ≠ 0 then
    match m.end_trigger with
    | none =>
      { m with end_triggered := m.end_trigger_waiting,
               end_trigger_waiting := m.end_trigger_pending,
               end_trigger :=
                 if m.end_trigger_pending ≠ 0 then some pos else m.end_trigger }
    | some _ => m
  else if m.end_trigger_pending ≠ 0 then
    { m with end_trigger_waiting := m.end_trigger_pending,
             end_trigger_pending := 0,
             end_trigger := some pos }
  else m

/-- The per-channel sweep over `active_cmds` in `step`: for each active
command on channel `i`, a still-open ramp is evaluated at
`m_cur_t - cmd->t` (uint32 subtraction) for the value and delta, an
elapsed one sets the final value and is erased from the list.  Returns
the surviving list and the updated amp, damp, freq, df. -/
def activePass (cur_t i : Nat) :
    List ActiveCmd → Int → Int → Int → Int → List ActiveCmd × Int × Int × Int × Int
  | [], amp, damp, freq, df => ([], amp, damp, freq, df)
  | ac :: rest, amp, damp, freq, df =>
    if ac.cmd.chn = i then
      if ac.cmd.op = opAmpFn ∨ ac.cmd.op = opAmpVecFn then
        if cur_t < ac.cmd.t + ac.cmd.len then
          let vd := ac.eval (sub32 cur_t ac.cmd.t)
          let r := activePass cur_t i rest vd.1 vd.2 freq df
          (ac :: r.1, r.2)
        else activePass cur_t i rest ac.cmd.final_val damp freq df
      else if ac.cmd.op = opFreqFn ∨ ac.cmd.op = opFreqVecFn then
        if cur_t < ac.cmd.t + ac.cmd.len then
          let vd := ac.eval (sub32 cur_t ac.cmd.t)
          let r := activePass cur_t i rest amp damp vd.1 vd.2
          (ac :: r.1, r.2)
        else activePass cur_t i rest amp damp ac.cmd.final_val df
      else
        let r := activePass cur_t i rest amp damp freq df
        (ac :: r.1, r.2)
    else
      let r := activePass cur_t i rest amp damp freq df
      (ac :: r.1, r.2)

/-- One iteration of the `do ... while (cmd && cmd->chn == i)` loop
body of `step`, folding one due command for channel `i` into the local
phase/amp/damp/freq/df values: FreqSet and the ramp openings update the
locals (registering a new active command when the window is still
open), Phase overwrites the local phase.  `none` reports the `break`
branch hit by every other opcode (including AmpSet, which this loop
never matches). -/
def dueApply (cur_t : Nat) (c : Cmd) (phase amp damp freq df : Int)
    (active : List ActiveCmd) :
    Option (Int × Int × Int × Int × Int × List ActiveCmd) :=
  if c.op = opFreqSet then some (phase, amp, damp, c.final_val, df, active)
  else if c.op = opFreqFn ∨ c.op = opFreqVecFn then
    if cur_t < c.t + c.len then
      let a := mkActive c
      let vd := a.eval (sub32 cur_t c.t)
      some (phase, amp, damp, vd.1, vd.2, active ++ [a])
    else some (phase, amp, damp, c.final_val, df, active)
  else if c.op = opAmpFn ∨ c.op = opAmpVecFn then
    if cur_t < c.t + c.len then
      let a := mkActive c
      let vd := a.eval (sub32 cur_t c.t)
      some (phase, vd.1, vd.2, freq, df, active ++ [a])
    else some (phase, c.final_val, damp, freq, df, active)
  else if c.op = opPhase then some (c.final_val, amp, damp, freq, df, active)
  else none

/-- The full `do ... while (cmd && cmd->chn == i)` loop of `step`: apply
the head (the caller guarantees it is due and addresses channel `i`),
stop without consuming on the `break` opcodes, otherwise consume it,
refetch with `get_cmd_curt` and continue while the refetched command is
due and still addresses channel `i`.  Returns the remaining queue,
whether a due command is still usable, the locals and the active
list. -/
def dueLoop (cur_t i : Nat) :
    List Cmd → Int → Int → Int → Int → Int → List ActiveCmd →
    List Cmd × Bool × Int × Int × Int × Int × Int × List ActiveCmd
  | [], phase, amp, damp, freq, df, active =>
    ([], false, phase, amp, damp, freq, df, active)
  | c :: rest, phase, amp, damp, freq, df, active =>
    match dueApply cur_t c phase amp damp freq df active with
    | none => (c :: rest, true, phase, amp, damp, freq, df, active)
    | some (phase1, amp1, damp1, freq1, df1, active1) =>
      match rest with
      | [] => ([], false, phase1, amp1, damp1, freq1, df1, active1)
      | c1 :: rest1 =>
        if c1.t ≤ cur_t then
          if c1.chn = i then dueLoop cur_t i (c1 :: rest1) phase1 amp1 damp1 freq1 df1 active1
          else (c1 :: rest1, true, phase1, amp1, damp1, freq1, df1, active1)
        else (c1 :: rest1, false, phase1, amp1, damp1, freq1, df1, active1)

/-- The phase wraparound at the end of each channel iteration:
`if (phase > max_phase || phase < -max_phase) phase = phase % max_phase`.
Since `phase` is `int64_t` and `max_phase` is `uint64_t`, the usual
arithmetic conversions make every operation unsigned: both guard
comparisons convert the phase to `uint64_t` (adding `2^64` to a
negative value) and `-max_phase` is the `uint64_t` value
`2^64 - max_phase`, so the guard holds for every phase value; the `%`
likewise reduces the `uint64_t` reinterpretation, which is a true
modulo only for nonnegative phases. -/
def wrapPhase (phase : Int) : Int :=
  if max_phase < phase.emod (2 ^ 64) ∨ phase.emod (2 ^ 64) < 2 ^ 64 - max_phase then
    (phase.emod (2 ^ 64)).emod max_phase
  else phase

/-- The state threaded through the per-channel loop of `step`: the
channel table, active commands, command queue, whether a due command is
usable, and the four output accumulators (uninitialized `int` locals in
the source, taken as starting from 0). -/
structure ChanCtx where
  states : Nat → State
  active : List ActiveCmd
  cmds : List Cmd
  live : Bool
  o1a : Int
  o2a : Int
  o1f : Int
  o2f : Int

/-- The body of `for (uint32_t i = 0; i < _nchns; i++)` in `step`: load
the channel state into locals, run the active-command sweep, then (when
the due command addresses this channel) the due-command loop; feed
amp/damp and freq/df through `test_compute_single_chn` (which adds `val`
to the first accumulator and `val + dval` to the second), and store the
wrapped phase back.  Only the phase is written back to the channel
state. -/
def chanBody (cur_t : Nat) (ctx : ChanCtx) (i : Nat) : ChanCtx :=
  let st := ctx.states i
  let r0 := activePass cur_t i ctx.active st.amp 0 st.freq 0
  let active1 := r0.1
  let amp0 := r0.2.1
  let damp0 := r0.2.2.1
  let freq0 := r0.2.2.2.1
  let df0 := r0.2.2.2.2
  let r1 :=
    if ctx.live then
      match ctx.cmds with
      | c :: rest =>
        if c.chn = i then dueLoop cur_t i (c :: rest) st.phase amp0 damp0 freq0 df0 active1
        else (c :: rest, true, st.phase, amp0, damp0, freq0, df0, active1)
      | [] => ([], false, st.phase, amp0, damp0, freq0, df0, active1)
    else (ctx.cmds, false, st.phase, amp0, damp0, freq0, df0, active1)
  let cmds1 := r1.1
  let live1 := r1.2.1
  let phase1 := r1.2.2.1
  let amp1 := r1.2.2.2.1
  let damp1 := r1.2.2.2.2.1
  let freq1 := r1.2.2.2.2.2.1
  let df1 := r1.2.2.2.2.2.2.1
  let active2 := r1.2.2.2.2.2.2.2
  { states := updState ctx.states i (fun s => { s with phase := wrapPhase phase1 })
    active := active2
    cmds := cmds1
    live := live1
    o1a := ctx.o1a + amp1
    o2a := ctx.o2a + amp1 + damp1
    o1f := ctx.o1f + freq1
    o2f := ctx.o2f + freq1 + df1 }

/-- The channel loop of `step` over the snapshot `_nchns = m_chns`. -/
def chanLoop (cur_t n : Nat) (ctx : ChanCtx) : ChanCtx :=
  (List.range n).foldl (chanBody cur_t) ctx

/-- `StreamBase::step`: run the command phase, the end-trigger block and
the channel loop, then advance the time by one (uint32).  Returns the
new stream state, the remaining command queue and the four outputs
written to `out`. -/
def step (m : MS) (cmds : List Cmd) : MS × List Cmd × (Int × Int × Int × Int) :=
  let r := stepRetryF (cmds.length + 1) m cmds
  let m1 := r.1
  let cmds1 := r.2.1
  let live := r.2.2
  let m2 := endTrigStep m1 m1.output_cnt
  let ctx := chanLoop m2.cur_t m2.chns
    ⟨m2.states, m2.active_cmds, cmds1, live, 0, 0, 0, 0⟩
  ({ m2 with states := ctx.states, active_cmds := ctx.active,
             cur_t := (m2.cur_t + 1) % 2 ^ 32 },
   ctx.cmds, (ctx.o1a, ctx.o2a, ctx.o1f, ctx.o2f))

/-- Iterate `step`, discarding the outputs. -/
def stepN : Nat → MS × List Cmd → MS × List Cmd
  | 0, p => p
  | n + 1, p =>
    let r := step p.1 p.2
    stepN n (r.1, r.2.1)

/-- The packed in-memory layout of `struct Cmd` for
serialization purposes: `uint32_t t`, the 32-bit word packing the 4-bit
opcode (low bits) with the 28-bit channel, the 32-bit final value and
32-bit float duration as raw bit patterns, and the generator handle
(`void(*)(void)`); `static_assert(sizeof(Cmd) == 20)` forces the handle
to be 32 bits wide. -/
structure CmdRecord where
  t : Nat
  op : Nat
  chn : Nat
  final_val : Nat
  len_bits : Nat
  fnptr : Nat
deriving DecidableEq

/-- Field bounds of a representable record: 32-bit time, 4-bit opcode,
28-bit channel, 32-bit value and duration patterns, 32-bit handle. -/
def CmdRecord.valid (c : CmdRecord) : Prop :=
  c.t < 2 ^ 32 ∧ c.op < 2 ^ 4 ∧ c.chn < 2 ^ 28 ∧ c.final_val < 2 ^ 32 ∧
    c.len_bits < 2 ^ 32 ∧ c.fnptr < 2 ^ 32

instance (c : CmdRecord) : Decidable c.valid := by
  unfold CmdRecord.valid; infer_instance

/-- Little-endian bytes of a 32-bit word. -/
def encode32 (x : Nat) : List Nat :=
  [x % 256, x / 256 % 256, x / 65536 % 256, x / 16777216 % 256]

/-- Little-endian bytes of a 64-bit word. -/
def encode64 (x : Nat) : List Nat :=
  encode32 (x % 2 ^ 32) ++ encode32 (x / 2 ^ 32)

/-- Encoding of a command record in the 20-byte packed layout the
source asserts: time, opcode-plus-channel word, final value, duration
bits, then the 32-bit generator handle. -/
def encodeCmdRecord (c : CmdRecord) : List Nat :=
  encode32 c.t ++ encode32 (c.op + 16 * c.chn) ++ encode32 c.final_val ++
    encode32 c.len_bits ++ encode32 c.fnptr

/-- Modelled from the spec: the layout as section 6 of the spec words
it, with a 64-bit generator handle after the four 32-bit fields.  Kept
separate from `encodeCmdRecord` to compare the two layouts. -/
def encodeCmdRecordSpec (c : CmdRecord) : List Nat :=
  encode32 c.t ++ encode32 (c.op + 16 * c.chn) ++ encode32 c.final_val ++
    encode32 c.len_bits ++ encode64 c.fnptr

/-- Decoding of the 20-byte packed layout. -/
def decodeCmdRecord : List Nat → CmdRecord
  | [b0, b1, b2, b3, b4, b5, b6, b7, b8, b9, b10, b11, b12, b13, b14, b15,
     b16, b17, b18, b19] =>
    let w := b4 + 256 * b5 + 65536 * b6 + 16777216 * b7
    { t := b0 + 256 * b1 + 65536 * b2 + 16777216 * b3
      op := w % 16
      chn := w / 16
      final_val := b8 + 256 * b9 + 65536 * b10 + 16777216 * b11
      len_bits := b12 + 256 * b13 + 65536 * b14 + 16777216 * b15
      fnptr := b16 + 256 * b17 + 65536 * b18 + 16777216 * b19 }
  | _ => ⟨0, 0, 0, 0, 0, 0⟩

/-- Events touching the end-trigger state: consumption of a TriggerEnd
command (which stores the id into `m_end_trigger_pending`), an external
`set_end_trigger` call, and the once-per-step end-trigger block of
`step` with the output position it would publish. -/
inductive ETEvent where
  | trigEnd (id : Nat)
  | extSet (p : Option Nat)
  | tick (pos : Nat)

/-- Apply one end-trigger event to the stream state. -/
def etApply (m : MS) : ETEvent → MS
  | .trigEnd id => { m with end_trigger_pending := id }
  | .extSet p => { m with end_trigger := p }
  | .tick pos => endTrigStep m pos

/-- The ids the given event publishes as triggered from state `m`
(the store to `m_end_triggered` happens exactly when an id is waiting
and the external pointer reads as unavailable). -/
def etPublishes (m : MS) : ETEvent → List Nat
  | .tick _ =>
    if m.end_trigger_waiting ≠ 0 ∧ m.end_trigger = none then
      [m.end_trigger_waiting]
    else []
  | _ => []

/-- All ids published as triggered along a trace of end-trigger
events. -/
def etPublished : MS → List ETEvent → List Nat
  | _, [] => []
  | m, ev :: tr => etPublishes m ev ++ etPublished (etApply m ev) tr

/-- The ids recorded by TriggerEnd commands in a trace. -/
def etEndIds : List ETEvent → List Nat
  | [] => []
  | .trigEnd id :: tr => id :: etEndIds tr
  | _ :: tr => etEndIds tr

/-- A quiescent stream state: no channels, time 0, no triggers pending,
unit step time. -/
def baseMS : MS :=
  { slow_mode := false, end_trigger_pending := 0, end_trigger_waiting := 0,
    chns := 0, cur_t := 0, output_cnt := 0, step_t := 1, cmd_underflow := 0,
    underflow := 0, active_cmds := [], end_triggered := 0, time_offset := 0,
    end_trigger := none, start_trigger := 0, start_trigger_time := 0,
    states := fun _ => ⟨0, 0, 0⟩ }

/-- One live channel with amplitude 3. -/
def c1m : MS := { baseMS with chns := 1, states := fun _ => ⟨0, 0, 3⟩ }

/-- One live channel with amplitude 5; no start trigger published. -/
def c2m : MS := { baseMS with chns := 1, states := fun _ => ⟨0, 0, 5⟩ }

/-- An amplitude vector ramp on channel 0 starting at time 0, duration 2,
final value 7, generator table 1, 4, 7 (monotone from 1 to 7). -/
def c3ramp : Cmd := Cmd.getAmpVecFn 0 0 7 2 (fun l => l.map (fun k => 1 + 3 * (k : Int)))

/-- One live channel with amplitude 1 (the value before the ramp). -/
def c3m : MS := { baseMS with chns := 1, states := fun _ => ⟨0, 0, 1⟩ }

/-- Stream state at time 2 about to catch up on a backlog. -/
def c4m : MS := { baseMS with cur_t := 2 }

/-- Backlog: add three channels, give them amplitudes 10, 20, 30, then
remove channel index 1. -/
def c4cmds : List Cmd :=
  [Cmd.getAddChn 1, Cmd.getAddChn 1, Cmd.getAddChn 1,
   Cmd.getAmpSet 1 0 10, Cmd.getAmpSet 1 1 20, Cmd.getAmpSet 1 2 30,
   Cmd.getDelChn 1 1]

/-- Stream state at time 5 (so a command with time 0 is stale). -/
def c5m : MS := { baseMS with cur_t := 5 }

/-- A pending end-trigger id 5 with no id waiting and the external end
pointer unavailable. -/
def c6m : MS := { baseMS with end_trigger_pending := 5 }

/-- Two live channels; channel index 5 is beyond the live count. -/
def c9m : MS := { baseMS with chns := 2 }

/-- An amplitude set addressing channel 5 while only 2 channels are
live. -/
def c9c : Cmd := Cmd.getAmpSet 0 5 7

/-- A vector ramp starting at time 5 with duration 10; its table has the
full 11 entries. -/
def c10cmd : Cmd := Cmd.getAmpVecFn 5 0 0 10 (fun l => l.map (fun n => (n : Int)))

/-! ## Helper lemmas -/

lemma sub32_eq_sub (a b : Nat) (hba : b ≤ a) (ha : a < 2 ^ 32) :
    sub32 a b = a - b := by
  simp only [sub32]
  omega

lemma recompose32 (x : Nat) (h : x < 2 ^ 32) :
    x % 256 + 256 * (x / 256 % 256) + 65536 * (x / 65536 % 256) +
      16777216 * (x / 16777216 % 256) = x := by
  have e1 : x / 65536 = x / 256 / 256 := by
    rw [Nat.div_div_eq_div_mul]
  have e2 : x / 16777216 = x / 256 / 256 / 256 := by
    rw [Nat.div_div_eq_div_mul, Nat.div_div_eq_div_mul]
  rw [e1, e2]
  omega

lemma check_start_slow (m : MS) (t id : Nat) :
    (check_start m t id).1.slow_mode = !(check_start m t id).2 := by
  unfold check_start
  split_ifs <;> rfl

lemma check_start_iff (m : MS) (t id : Nat) :
    (check_start m t id).2 = true ↔
      id ≤ m.start_trigger ∧ m.start_trigger_time ≤ proj_time m := by
  unfold check_start
  have hp : proj_time { m with cur_t := t } = proj_time m := rfl
  split_ifs with h1 h2
  · simp only [Bool.false_eq_true, false_iff]
    omega
  · rw [hp] at h2
    simp only [Bool.false_eq_true, false_iff]
    omega
  · rw [hp] at h2
    simp only [true_iff]
    omega

lemma endTrigStep_slow_mode (m : MS) (pos : Nat) :
    (endTrigStep m pos).slow_mode = m.slow_mode := by
  unfold endTrigStep
  split_ifs <;> first | rfl | (rcases m.end_trigger <;> rfl)

lemma endTrigStep_pending_cases (m : MS) (pos : Nat) :
    (endTrigStep m pos).end_trigger_pending = m.end_trigger_pending ∨
    (endTrigStep m pos).end_trigger_pending = 0 := by
  unfold endTrigStep
  rcases he : m.end_trigger with _ | p <;> split_ifs <;>
    first | (left; rfl) | (right; rfl)

lemma endTrigStep_waiting_cases (m : MS) (pos : Nat) :
    (endTrigStep m pos).end_trigger_waiting = m.end_trigger_waiting ∨
    (endTrigStep m pos).end_trigger_waiting = m.end_trigger_pending := by
  unfold endTrigStep
  rcases he : m.end_trigger with _ | p <;> split_ifs <;>
    first | (left; rfl) | (right; rfl)

lemma chanBody_not_live (cur_t : Nat) (ctx : ChanCtx) (i : Nat)
    (h : ctx.live = false) :
    (chanBody cur_t ctx i).cmds = ctx.cmds ∧ (chanBody cur_t ctx i).live = false := by
  unfold chanBody
  rw [h]
  exact ⟨rfl, rfl⟩

lemma chanFold_not_live (cur_t : Nat) (l : List Nat) :
    ∀ ctx : ChanCtx, ctx.live = false →
      ((l.foldl (chanBody cur_t) ctx).cmds = ctx.cmds ∧
       (l.foldl (chanBody cur_t) ctx).live = false) := by
  induction l with
  | nil => intro ctx h; exact ⟨rfl, h⟩
  | cons i l ih =>
    intro ctx h
    have hb := chanBody_not_live cur_t ctx i h
    have hr := ih (chanBody cur_t ctx i) hb.2
    simp only [List.foldl_cons]
    exact ⟨hr.1.trans hb.1, hr.2⟩

lemma applyMetaCmd_underflow (c : Cmd) (m : MS)
    (h : c.chn ≠ metaResetAll) :
    (applyMetaCmd c m).1.cmd_underflow = m.cmd_underflow := by
  unfold applyMetaCmd check_start
  split_ifs <;> simp_all

lemma applyOldCmd_underflow (c : Cmd) (m : MS)
    (h : ¬(c.op = opMeta ∧ c.chn = metaResetAll)) :
    (applyOldCmd c m).1.cmd_underflow = m.cmd_underflow := by
  unfold applyOldCmd
  split_ifs with h1 h2 h3 h4 h5 h6 h7 h8 h9
  · exact applyMetaCmd_underflow c m (fun hc => h ⟨h1, hc⟩)
  all_goals simp [modChnApply]
  all_goals split_ifs <;> rfl

lemma consumeOldLoop_underflow (l : List Cmd) :
    ∀ m : MS, (∀ c ∈ l, ¬(c.op = opMeta ∧ c.chn = metaResetAll)) →
      (consumeOldLoop l m).1.cmd_underflow = m.cmd_underflow := by
  induction l with
  | nil => intro m _; rfl
  | cons c rest ih =>
    intro m hl
    unfold consumeOldLoop
    dsimp only
    split_ifs with h1 h2 h3
    · rfl
    · rfl
    · rw [ih (applyOldCmd c m).1 (fun x hx => hl x (List.mem_cons_of_mem c hx))]
      exact applyOldCmd_underflow c m (hl c (List.mem_cons_self c rest))
    · exact applyOldCmd_underflow c m (hl c (List.mem_cons_self c rest))

lemma etSafety (tr : List ETEvent) :
    ∀ (m : MS) (S : List Nat),
      (m.end_trigger_pending = 0 ∨ m.end_trigger_pending ∈ S) →
      (m.end_trigger_waiting = 0 ∨ m.end_trigger_waiting ∈ S) →
      ∀ id ∈ etPublished m tr, id ∈ S ∨ id ∈ etEndIds tr := by
  induction tr with
  | nil =>
    intro m S _ _ id hid
    simp [etPublished] at hid
  | cons ev tr ih =>
    intro m S hp hw id hid
    cases ev with
    | trigEnd k =>
      simp only [etPublished, etPublishes, List.nil_append] at hid
      have hrec := ih (etApply m (.trigEnd k)) (k :: S)
        (Or.inr (List.mem_cons_self k S))
        (hw.imp (fun h0 => h0) (fun hx => List.mem_cons_of_mem k hx)) id hid
      simp only [etEndIds]
      rcases hrec with hks | ht
      · rcases List.mem_cons.mp hks with hk | hs
        · exact Or.inr (hk ▸ List.mem_cons_self k (etEndIds tr))
        · exact Or.inl hs
      · exact Or.inr (List.mem_cons_of_mem k ht)
    | extSet p =>
      simp only [etPublished, etPublishes, List.nil_append] at hid
      have hrec := ih (etApply m (.extSet p)) S hp hw id hid
      simpa [etEndIds] using hrec
    | tick pos =>
      simp only [etPublished, etPublishes] at hid
      have hpend := endTrigStep_pending_cases m pos
      have hwait := endTrigStep_waiting_cases m pos
      have hp1 : (etApply m (.tick pos)).end_trigger_pending = 0 ∨
          (etApply m (.tick pos)).end_trigger_pending ∈ S := by
        rcases hpend with h | h <;>
          rw [show etApply m (.tick pos) = endTrigStep m pos from rfl, h]
        · exact hp
        · exact Or.inl rfl
      have hw1 : (etApply m (.tick pos)).end_trigger_waiting = 0 ∨
          (etApply m (.tick pos)).end_trigger_waiting ∈ S := by
        rcases hwait with h | h <;>
          rw [show etApply m (.tick pos) = endTrigStep m pos from rfl, h]
        · exact hw
        · exact hp
      by_cases hc : m.end_trigger_waiting ≠ 0 ∧ m.end_trigger = none
      · rw [if_pos hc] at hid
        rcases List.mem_append.mp hid with hone | hrest
        · have heq : id = m.end_trigger_waiting := List.mem_singleton.mp hone
          subst heq
          rcases hw with h0 | hs
          · exact absurd h0 hc.1
          · exact Or.inl hs
        · have hrec := ih (etApply m (.tick pos)) S hp1 hw1 id hrest
          simpa [etEndIds] using hrec
      · rw [if_neg hc] at hid
        simp only [List.nil_append] at hid
        have hrec := ih (etApply m (.tick pos)) S hp1 hw1 id hid
        simpa [etEndIds] using hrec

lemma chanLoop_not_live (cur_t n : Nat) (ctx : ChanCtx) (h : ctx.live = false) :
    (chanLoop cur_t n ctx).cmds = ctx.cmds :=
  (chanFold_not_live cur_t (List.range n) ctx h).1

/-! ## Claim theorems -/

/-- C2 counterexample: with no start trigger published, a step whose due
command is TriggerStart id 1 leaves slow mode set and the command in the
queue, but the step still synthesizes and returns output from the
existing channel state (amplitude sub-samples 5, 5) — refuting the
claimed conjunct that no output is generated for that step. -/
theorem C2_counterexample :
    (step c2m [Cmd.getTriggerStart 0 1]).1.slow_mode = true ∧
    (step c2m [Cmd.getTriggerStart 0 1]).2.1.length = 1 ∧
    (step c2m [Cmd.getTriggerStart 0 1]).2.2.1 = 5 ∧
    (step c2m [Cmd.getTriggerStart 0 1]).2.2.2.1 = 5 := by
  decide

/-- C2 amended: the trigger check succeeds, clearing slow mode, iff the
published start-trigger id has reached the commanded id and the
projected global time (time offset plus step_t times the output count,
added modulo 2^64) has reached the published start-trigger time; while
unsatisfied the slow-mode flag is set, the TriggerStart command stays at
the head of the queue to be re-checked on a later step, and the step
still synthesizes output from the existing channel state rather than
suppressing it. -/
theorem C2_trigger_start_gating :
    (∀ (m : MS) (t id : Nat),
        ((check_start m t id).2 = true ↔
          id ≤ m.start_trigger ∧ m.start_trigger_time ≤ proj_time m) ∧
        (check_start m t id).1.slow_mode = !(check_start m t id).2) ∧
    (∀ (m : MS) (c : Cmd) (rest : List Cmd),
        c.op = opMeta → c.chn = metaTriggerStart → c.t = m.cur_t →
        (check_start m c.t (toU32 c.final_val)).2 = false →
        (step m (c :: rest)).2.1 = c :: rest ∧
        (step m (c :: rest)).1.slow_mode = true) := by
  constructor
  · intro m t id
    exact ⟨check_start_iff m t id, check_start_slow m t id⟩
  · intro m c rest hop hchn ht hfail
    have hmeta : applyMetaCmd c m = check_start m c.t (toU32 c.final_val) := by
      unfold applyMetaCmd
      rw [hchn]
      simp [metaReset, metaResetAll, metaTriggerEnd, metaTriggerStart]
    have hretry : stepRetryF ((c :: rest).length + 1) m (c :: rest) =
        ((check_start m c.t (toU32 c.final_val)).1, c :: rest, false) := by
      simp only [List.length_cons, stepRetryF]
      rw [if_neg (show ¬m.cur_t < c.t by omega),
        if_neg (show ¬c.t < m.cur_t by omega), if_pos hop]
      try dsimp only
      rw [hmeta, hfail]
      simp
    constructor
    · show (step m (c :: rest)).2.1 = c :: rest
      unfold step
      try dsimp only
      rw [hretry]
      try dsimp only
      exact chanLoop_not_live _ _ _ rfl
    · unfold step
      try dsimp only
      rw [hretry]
      try dsimp only
      rw [endTrigStep_slow_mode, check_start_slow, hfail]
      rfl

/-- C2 witness: the gating at the concrete one-channel state with no
published trigger. -/
theorem C2_trigger_start_gating_witness :
    ((check_start c2m 0 1).2 = true ↔
      1 ≤ c2m.start_trigger ∧ c2m.start_trigger_time ≤ proj_time c2m) ∧
    (check_start c2m 0 1).1.slow_mode = !(check_start c2m 0 1).2 ∧
    (step c2m [Cmd.getTriggerStart 0 1]).2.1 = [Cmd.getTriggerStart 0 1] ∧
    (step c2m [Cmd.getTriggerStart 0 1]).1.slow_mode = true :=
  ⟨(C2_trigger_start_gating.1 c2m 0 1).1,
   (C2_trigger_start_gating.1 c2m 0 1).2,
   (C2_trigger_start_gating.2 c2m (Cmd.getTriggerStart 0 1) [] rfl rfl rfl
      (by decide)).1,
   (C2_trigger_start_gating.2 c2m (Cmd.getTriggerStart 0 1) [] rfl rfl rfl
      (by decide)).2⟩

/-- C1: the claim says a Set command due at the current step is applied
in the live-step processing: the channel state field is overwritten with
`final_val` and that value feeds the synthesis.  On the code this fails:
an AmpSet due now for the single live channel (state amplitude 3,
command value 7) hits the `break` branch of the due-command loop, so the
state keeps amplitude 3, the synthesis is fed 3, and the command is not
even consumed; a FreqSet due now does feed its value 9 to the synthesis
and is consumed, but the channel state frequency stays 0 because the
per-channel loop writes back only the phase. -/
theorem C1_live_set_commands_bug :
    ((step c1m [Cmd.getAmpSet 0 0 7]).1.states 0).amp = 3 ∧
    (step c1m [Cmd.getAmpSet 0 0 7]).2.2.1 = 3 ∧
    (step c1m [Cmd.getAmpSet 0 0 7]).2.1.length = 1 ∧
    (step c1m [Cmd.getFreqSet 0 0 9]).2.2.2.2.1 = 9 ∧
    ((step c1m [Cmd.getFreqSet 0 0 9]).1.states 0).freq = 0 ∧
    (step c1m [Cmd.getFreqSet 0 0 9]).2.1.length = 0 := by
  decide

/-- C3: for the amplitude vector ramp `c3ramp` (start 0, duration 2,
from 1 to 7) on a channel whose stored amplitude is 1, the step at time
2 = T+D synthesizes the final value 7 and drops the active command, but
the step at time 3 synthesizes 1 again: the finalized value is never
written back to the channel state, contradicting the claim that every
step at or after T+D evaluates to F. -/
theorem C3_ramp_convergence_bug :
    (step (stepN 2 (c3m, [c3ramp])).1 (stepN 2 (c3m, [c3ramp])).2).2.2.1 = 7 ∧
    (stepN 3 (c3m, [c3ramp])).1.active_cmds.length = 0 ∧
    (step (stepN 3 (c3m, [c3ramp])).1 (stepN 3 (c3m, [c3ramp])).2).2.2.1 = 1 ∧
    ((stepN 3 (c3m, [c3ramp])).1.states 0).amp = 1 := by
  decide

/-- C7: phase wraparound.  For the out-of-bounds negative phase
-6250000001 the code stores 4959551615, obtained by first reinterpreting
the phase as `uint64_t` (adding `2^64`); that value is not congruent to
the original phase modulo 6250000000 (a true modulo would give
6249999999), so the stored phase is not an equivalent value.  Moreover
both guard comparisons are unsigned, so even the in-bound negative
phase -5 is rewritten (to 4959551611) instead of stored unchanged.
Positive phases, in or out of bounds, behave as claimed. -/
theorem C7_phase_wrap_bug :
    wrapPhase (-6250000001) = 4959551615 ∧
    (wrapPhase (-6250000001)).emod max_phase ≠ (-6250000001 : Int).emod max_phase ∧
    wrapPhase 6250000001 = 1 ∧
    wrapPhase 6250000 = 6250000 ∧
    wrapPhase (-5) = 4959551611 ∧
    wrapPhase (-5) ≠ -5 := by
  decide

/-- C5 counterexample: a call of `consume_old_cmds` at current time 5
consuming one stale command with time 0 does not increment the
command-underflow counter at all, because the counter is bumped only
when the first command has a nonzero time — refuting the claim that
every catch-up call over a stale backlog increments it exactly once. -/
theorem C5_counterexample :
    (consume_old_cmds c5m [Cmd.getAmpSet 0 0 7]).1.cmd_underflow =
      c5m.cmd_underflow ∧
    (consume_old_cmds c5m [Cmd.getAmpSet 0 0 7]).2.1.length = 0 ∧
    (Cmd.getAmpSet 0 0 7).t < c5m.cur_t := by
  decide

/-- C5 amended: one invocation of catch-up consumption increments the
command-underflow counter by one if the first command in the queue has a
nonzero time and by zero otherwise, independent of how many stale
commands are consumed (provided no ResetAll command, which clears the
counter, is in the queue). -/
theorem C5_underflow_once_per_call (m : MS) (c : Cmd) (rest : List Cmd)
    (h : ∀ x ∈ c :: rest, ¬(x.op = opMeta ∧ x.chn = metaResetAll)) :
    (consume_old_cmds m (c :: rest)).1.cmd_underflow =
      m.cmd_underflow + (if c.t ≠ 0 then 1 else 0) := by
  unfold consume_old_cmds
  dsimp only
  rw [consumeOldLoop_underflow (c :: rest) _ h]
  split_ifs <;> simp

/-- C5 witness: a backlog of three stale commands whose first has time
1 increments the counter exactly once. -/
theorem C5_underflow_once_per_call_witness :
    (consume_old_cmds c5m
      [Cmd.getAmpSet 1 0 2, Cmd.getFreqSet 1 0 3, Cmd.getPhase 2 0 4]).1.cmd_underflow =
      c5m.cmd_underflow + (if (Cmd.getAmpSet 1 0 2).t ≠ 0 then 1 else 0) :=
  C5_underflow_once_per_call c5m (Cmd.getAmpSet 1 0 2)
    [Cmd.getFreqSet 1 0 3, Cmd.getPhase 2 0 4] (by decide)

/-- C8 counterexample: the layout the claim describes — four 32-bit
fields followed by a 64-bit generator handle — occupies 24 bytes, not
the 20 bytes the claim (and the source `static_assert`) require. -/
theorem C8_counterexample :
    (encodeCmdRecordSpec ⟨1, 2, 3, 4, 5, 6⟩).length = 24 ∧
    (encodeCmdRecordSpec ⟨1, 2, 3, 4, 5, 6⟩).length ≠ 20 := by
  decide

/-- C8 amended: with the pointer-sized handle forced to 32 bits by
`sizeof(Cmd) == 20`, the packed record occupies exactly 20 bytes —
32-bit time, 4-bit opcode plus 28-bit channel in one 32-bit word, 32-bit
final value, 32-bit float-duration bits, 32-bit handle — and decoding an
encoded record recovers every field exactly. -/
theorem C8_record_roundtrip (c : CmdRecord) (h : c.valid) :
    decodeCmdRecord (encodeCmdRecord c) = c ∧ (encodeCmdRecord c).length = 20 := by
  obtain ⟨t, op, chn, fv, lb, fp⟩ := c
  obtain ⟨h1, h2, h3, h4, h5, h6⟩ := h
  simp only [CmdRecord.valid] at h1 h2 h3 h4 h5 h6
  constructor
  · have hw : op + 16 * chn < 2 ^ 32 := by omega
    simp only [encodeCmdRecord, encode32, List.cons_append, List.nil_append,
      decodeCmdRecord]
    rw [recompose32 t h1, recompose32 fv h4, recompose32 lb h5,
      recompose32 fp h6, recompose32 (op + 16 * chn) hw]
    simp only [CmdRecord.mk.injEq, true_and, and_true]
    omega
  · simp [encodeCmdRecord, encode32]

/-- C8 witness: the round trip at a concrete record. -/
theorem C8_record_roundtrip_witness :
    decodeCmdRecord (encodeCmdRecord ⟨7, 3, 1000, 4000000000, 123456, 99⟩) =
      ⟨7, 3, 1000, 4000000000, 123456, 99⟩ ∧
    (encodeCmdRecord ⟨7, 3, 1000, 4000000000, 123456, 99⟩).length = 20 :=
  C8_record_roundtrip ⟨7, 3, 1000, 4000000000, 123456, 99⟩ (by decide)

/-- C4: removing channel index i with c live channels copies the state
of channel c-1 into slot i, leaves every other slot untouched and
decrements the live count to c-1; catch-up consumption routes a
non-sentinel ModChn command to exactly this transition.  In the concrete
scenario, adding three channels, giving them amplitudes 10, 20, 30 and
removing channel index 1 leaves two live channels with the states of the
original channels 0 and 2. -/
theorem C4_remove_channel :
    (∀ (m : MS) (c : Cmd), c.op = opModChn → c.chn ≠ add_chn →
      1 ≤ m.chns → m.chns < 2 ^ 32 →
      (modChnApply c m).chns = m.chns - 1 ∧
      (modChnApply c m).states c.chn = m.states (m.chns - 1) ∧
      (∀ j, j ≠ c.chn → (modChnApply c m).states j = m.states j) ∧
      applyOldCmd c m = (modChnApply c m, true)) ∧
    ((consumeOldLoop c4cmds c4m).1.chns = 2 ∧
     (consumeOldLoop c4cmds c4m).1.states 0 = ⟨0, 0, 10⟩ ∧
     (consumeOldLoop c4cmds c4m).1.states 1 = ⟨0, 0, 30⟩) := by
  constructor
  · intro m c hop hchn h1 h2
    have hs : sub32 m.chns 1 = m.chns - 1 := sub32_eq_sub m.chns 1 h1 h2
    refine ⟨?_, ?_, ?_, ?_⟩
    · simp [modChnApply, hchn, hs]
    · simp [modChnApply, hchn, hs, updState]
    · intro j hj
      simp [modChnApply, hchn, updState, hj]
    · simp [applyOldCmd, hop, opModChn, opMeta, opAmpSet, opFreqSet, opAmpFn,
        opAmpVecFn, opFreqFn, opFreqVecFn, opPhase]
  · decide

/-- C4 witness: removing channel 0 of three zeroed channels leaves two
and moves the state of channel 2 into slot 0. -/
theorem C4_remove_channel_witness :
    (modChnApply (Cmd.getDelChn 0 0) { baseMS with chns := 3 }).chns = 2 ∧
    (modChnApply (Cmd.getDelChn 0 0) { baseMS with chns := 3 }).states 0 =
      ({ baseMS with chns := 3 } : MS).states 2 := by
  have h := C4_remove_channel.1 { baseMS with chns := 3 } (Cmd.getDelChn 0 0)
    (by decide) (by decide) (by decide) (by decide)
  exact ⟨h.1, h.2.1⟩

/-- C9 counterexample: an AmpSet addressing channel index 5 while only
2 channels are live is not a no-op in catch-up consumption: it writes
amplitude 7 into state-table slot 5, refuting the claim that no channel
state entry is modified. -/
theorem C9_counterexample :
    ((applyOldCmd c9c c9m).1.states 5).amp = 7 ∧
    (c9m.states 5).amp = 0 ∧
    c9m.chns ≤ c9c.chn ∧
    c9c.op = opAmpSet := by
  decide

/-- C9 amended: a command with an unrecognized opcode (9 or above) is a
true no-op in catch-up consumption and hits the break branch of the
live due-command loop, modifying nothing and raising no failure.  A
non-Add command whose channel index is at or beyond the live count is
however not rejected and not a no-op — the engine applies it with no
bound check: AmpSet, FreqSet and Phase overwrite their field of the
state-table slot they address, leaving the live channel count and every
other slot unchanged, while a channel removal still moves the state of
the last live channel into the addressed slot and decrements the live
count. -/
theorem C9_malformed_commands :
    (∀ (c : Cmd) (m : MS), 9 ≤ c.op → applyOldCmd c m = (m, true)) ∧
    (∀ (cur_t : Nat) (c : Cmd) (phase amp damp freq df : Int)
       (active : List ActiveCmd), 9 ≤ c.op →
       dueApply cur_t c phase amp damp freq df active = none) ∧
    (∀ (m : MS) (c : Cmd),
       (c.op = opAmpSet ∨ c.op = opFreqSet ∨ c.op = opPhase) → m.chns ≤ c.chn →
       (applyOldCmd c m).1.chns = m.chns ∧
       (∀ j, j ≠ c.chn → (applyOldCmd c m).1.states j = m.states j) ∧
       (c.op = opAmpSet → ((applyOldCmd c m).1.states c.chn).amp = c.final_val) ∧
       (c.op = opFreqSet → ((applyOldCmd c m).1.states c.chn).freq = c.final_val) ∧
       (c.op = opPhase → ((applyOldCmd c m).1.states c.chn).phase = c.final_val)) ∧
    (∀ (m : MS) (c : Cmd), c.op = opModChn → c.chn ≠ add_chn → m.chns ≤ c.chn →
       (applyOldCmd c m).1.chns = sub32 m.chns 1 ∧
       (applyOldCmd c m).1.states c.chn = m.states (sub32 m.chns 1)) := by
  refine ⟨?_, ?_, ?_, ?_⟩
  · intro c m h
    have h0 : ¬c.op = opMeta := by simp only [opMeta]; omega
    have h1 : ¬c.op = opAmpSet := by simp only [opAmpSet]; omega
    have h2 : ¬c.op = opFreqSet := by simp only [opFreqSet]; omega
    have h3 : ¬(c.op = opAmpFn ∨ c.op = opAmpVecFn) := by
      simp only [opAmpFn, opAmpVecFn]; omega
    have h4 : ¬(c.op = opFreqFn ∨ c.op = opFreqVecFn) := by
      simp only [opFreqFn, opFreqVecFn]; omega
    have h5 : ¬c.op = opPhase := by simp only [opPhase]; omega
    have h6 : ¬c.op = opModChn := by simp only [opModChn]; omega
    simp only [applyOldCmd, if_neg h0, if_neg h1, if_neg h2, if_neg h3,
      if_neg h4, if_neg h5, if_neg h6]
  · intro cur_t c phase amp damp freq df active h
    have h1 : ¬c.op = opFreqSet := by simp only [opFreqSet]; omega
    have h2 : ¬(c.op = opFreqFn ∨ c.op = opFreqVecFn) := by
      simp only [opFreqFn, opFreqVecFn]; omega
    have h3 : ¬(c.op = opAmpFn ∨ c.op = opAmpVecFn) := by
      simp only [opAmpFn, opAmpVecFn]; omega
    have h4 : ¬c.op = opPhase := by simp only [opPhase]; omega
    simp only [dueApply, if_neg h1, if_neg h2, if_neg h3, if_neg h4]
  · intro m c hop hge
    refine ⟨?_, ?_, ?_, ?_, ?_⟩
    · rcases hop with h | h | h <;>
        simp [applyOldCmd, h, opMeta, opAmpSet, opFreqSet, opAmpFn, opAmpVecFn,
          opFreqFn, opFreqVecFn, opPhase]
    · intro j hj
      rcases hop with h | h | h <;>
        simp [applyOldCmd, h, opMeta, opAmpSet, opFreqSet, opAmpFn, opAmpVecFn,
          opFreqFn, opFreqVecFn, opPhase, updState, hj]
    · intro h
      simp [applyOldCmd, h, opMeta, opAmpSet, updState]
    · intro h
      simp [applyOldCmd, h, opMeta, opAmpSet, opFreqSet, updState]
    · intro h
      simp [applyOldCmd, h, opMeta, opAmpSet, opFreqSet, opAmpFn, opAmpVecFn,
        opFreqFn, opFreqVecFn, opPhase, updState]
  · intro m c hop hchn hge
    constructor <;>
      simp [applyOldCmd, hop, opMeta, opAmpSet, opFreqSet, opAmpFn, opAmpVecFn,
        opFreqFn, opFreqVecFn, opPhase, opModChn, modChnApply, hchn, updState]

/-- C9 witness: a command with opcode 12 is a no-op on `c9m` in both
paths; the out-of-range AmpSet `c9c` writes amplitude 7 into slot 5 and
keeps the live count at 2; and an out-of-range channel removal on `c9m`
still decrements the count and moves the last live state into slot
5. -/
theorem C9_malformed_commands_witness :
    applyOldCmd ⟨0, 12, 0, 0, 0, fun _ => 0, fun _ => []⟩ c9m = (c9m, true) ∧
    dueApply 0 ⟨0, 12, 0, 0, 0, fun _ => 0, fun _ => []⟩ 0 0 0 0 0 [] = none ∧
    ((applyOldCmd c9c c9m).1.chns = c9m.chns ∧
     ((applyOldCmd c9c c9m).1.states c9c.chn).amp = c9c.final_val) ∧
    ((applyOldCmd (Cmd.getDelChn 0 5) c9m).1.chns = sub32 c9m.chns 1 ∧
     (applyOldCmd (Cmd.getDelChn 0 5) c9m).1.states (Cmd.getDelChn 0 5).chn =
       c9m.states (sub32 c9m.chns 1)) :=
  ⟨C9_malformed_commands.1 ⟨0, 12, 0, 0, 0, fun _ => 0, fun _ => []⟩ c9m (by decide),
   C9_malformed_commands.2.1 0 ⟨0, 12, 0, 0, 0, fun _ => 0, fun _ => []⟩ 0 0 0 0 0 []
     (by decide),
   ⟨(C9_malformed_commands.2.2.1 c9m c9c (by decide) (by decide)).1,
    (C9_malformed_commands.2.2.1 c9m c9c (by decide) (by decide)).2.2.1 (by decide)⟩,
   C9_malformed_commands.2.2.2 c9m (Cmd.getDelChn 0 5) (by decide) (by decide)
     (by decide)⟩

/-- C10 counterexample: after a Reset rewinds the current time to 0,
the window guard `cmd.t + cmd.len > cur_t` of the ramp `c10cmd`
(started at time 5, duration 10, full 11-entry table) still holds, yet
the uint32 evaluation offset `m_cur_t - cmd->t` wraps to 4294967291,
violating the claimed bound `t ≤ duration - 1` and reading far outside
the precomputed table. -/
theorem C10_counterexample :
    (mkActive c10cmd).vals.length = c10cmd.len + 1 ∧
    0 < c10cmd.t + c10cmd.len ∧
    sub32 0 c10cmd.t = 4294967291 ∧
    ¬(sub32 0 c10cmd.t ≤ c10cmd.len - 1) ∧
    ¬(sub32 0 c10cmd.t + 1 < (mkActive c10cmd).vals.length) := by
  decide

/-- C10 amended: for a vector-generator ramp whose table has at least
duration+1 entries, every evaluation the step machine performs while the
window is open *and the current time has not been rebased below the
ramp start* happens at an offset at most duration-1 and reads only the
table entries at that offset and the next one, both in bounds. -/
theorem C10_vec_eval_in_bounds (c : Cmd) (cur_t : Nat)
    (hop : c.op = opAmpVecFn ∨ c.op = opFreqVecFn)
    (hts : c.t ≤ cur_t) (hcur : cur_t < 2 ^ 32)
    (hwin : cur_t < c.t + c.len)
    (hlen : c.len + 1 ≤ (mkActive c).vals.length) :
    sub32 cur_t c.t ≤ c.len - 1 ∧
    sub32 cur_t c.t + 1 < (mkActive c).vals.length ∧
    (mkActive c).eval (sub32 cur_t c.t) =
      ((mkActive c).vals.getD (sub32 cur_t c.t) 0,
       (mkActive c).vals.getD (sub32 cur_t c.t + 1) 0 -
         (mkActive c).vals.getD (sub32 cur_t c.t) 0) := by
  have hs : sub32 cur_t c.t = cur_t - c.t := sub32_eq_sub cur_t c.t hts hcur
  have hcmd : (mkActive c).cmd = c := rfl
  refine ⟨by omega, by omega, ?_⟩
  unfold ActiveCmd.eval
  rw [hcmd, if_pos hop]

/-- C6 counterexample: with id 5 pending, no id waiting and the
external end pointer never having become available (it is null), the
end-trigger block still promotes 5 to waiting — and it is the promotion
itself that publishes the pointer — refuting the claim that promotion
happens only after the external end pointer became available. -/
theorem C6_counterexample :
    c6m.end_trigger = none ∧
    c6m.end_trigger_pending = 5 ∧
    c6m.end_trigger_waiting = 0 ∧
    (endTrigStep c6m 3).end_trigger_waiting = 5 ∧
    (endTrigStep c6m 3).end_trigger = some 3 := by
  decide

/-- C6 amended: a waiting id is published as triggered exactly when the
end-trigger block observes the external pointer unavailable while an id
waits; if another id is pending at that moment the promotion repeats
immediately in the same step (re-publishing the pointer); and along any
trace of TriggerEnd consumptions, external pointer updates and steps
that starts with nothing pending or waiting, every id ever published as
triggered was first recorded by a TriggerEnd command.  (A pending id is
promoted at the first step with no id waiting; the promotion itself
publishes the end pointer rather than waiting for it to become
available.) -/
theorem C6_end_trigger_protocol :
    (∀ (m : MS) (pos : Nat),
        (endTrigStep m pos).end_triggered =
          (if m.end_trigger_waiting ≠ 0 ∧ m.end_trigger = none then
            m.end_trigger_waiting
          else m.end_triggered)) ∧
    (∀ (m : MS) (pos : Nat),
        m.end_trigger_waiting ≠ 0 → m.end_trigger = none →
        m.end_trigger_pending ≠ 0 →
        (endTrigStep m pos).end_trigger_waiting = m.end_trigger_pending ∧
        (endTrigStep m pos).end_trigger = some pos) ∧
    (∀ (tr : List ETEvent) (m : MS),
        m.end_trigger_pending = 0 → m.end_trigger_waiting = 0 →
        ∀ id ∈ etPublished m tr, id ∈ etEndIds tr) := by
  refine ⟨?_, ?_, ?_⟩
  · intro m pos
    unfold endTrigStep
    rcases he : m.end_trigger with _ | p <;> split_ifs <;> simp_all
  · intro m pos hw he hp
    unfold endTrigStep
    rw [he, if_pos hw]
    exact ⟨rfl, by simp [hp]⟩
  · intro tr m hp hw id hid
    rcases etSafety tr m [] (Or.inl hp) (Or.inl hw) id hid with h | h
    · exact absurd h (List.not_mem_nil id)
    · exact h

/-- C6 witness: the protocol at concrete states — publication of the
waiting id 4, immediate re-promotion of the pending id 5, and the id 9
published along the trace TriggerEnd 9, step, pointer cleared, step was
recorded by that TriggerEnd. -/
theorem C6_end_trigger_protocol_witness :
    (endTrigStep { c6m with end_trigger_waiting := 4 } 3).end_triggered = 4 ∧
    (endTrigStep { c6m with end_trigger_waiting := 4 } 3).end_trigger_waiting = 5 ∧
    (endTrigStep { c6m with end_trigger_waiting := 4 } 3).end_trigger = some 3 ∧
    9 ∈ etEndIds [ETEvent.trigEnd 9, ETEvent.tick 0, ETEvent.extSet none,
      ETEvent.tick 1] :=
  ⟨(C6_end_trigger_protocol.1 { c6m with end_trigger_waiting := 4 } 3).trans
      (by decide),
   (C6_end_trigger_protocol.2.1 { c6m with end_trigger_waiting := 4 } 3
      (by decide) (by decide) (by decide)).1,
   (C6_end_trigger_protocol.2.1 { c6m with end_trigger_waiting := 4 } 3
      (by decide) (by decide) (by decide)).2,
   C6_end_trigger_protocol.2.2
     [ETEvent.trigEnd 9, ETEvent.tick 0, ETEvent.extSet none, ETEvent.tick 1]
     baseMS rfl rfl 9 (by decide)⟩

/-- C10 witness: the bounds at current time 7 for the ramp `c10cmd`. -/
theorem C10_vec_eval_in_bounds_witness :
    sub32 7 c10cmd.t ≤ c10cmd.len - 1 ∧
    sub32 7 c10cmd.t + 1 < (mkActive c10cmd).vals.length ∧
    (mkActive c10cmd).eval (sub32 7 c10cmd.t) =
      ((mkActive c10cmd).vals.getD (sub32 7 c10cmd.t) 0,
       (mkActive c10cmd).vals.getD (sub32 7 c10cmd.t + 1) 0 -
         (mkActive c10cmd).vals.getD (sub32 7 c10cmd.t) 0) :=
  C10_vec_eval_in_bounds c10cmd 7 (by decide) (by decide) (by decide)
    (by decide) (by decide)

end Spcm
